import Mathlib

/-!
Shallow embedding of the connectrylab-omnitrade-mcp desktop backend
(`src/desktop/src-tauri/src/commands/{config,daemon,alerts,dca,prices}.rs`).

Conventions of the embedding:
* Rust `f64` fields are modelled as `ℚ`; the only numeric operations the
  embedded code performs on them are literal construction and decimal-string
  parsing, both exact.
* Rust `String`/`&str` values are modelled as Lean `String`; helpers that walk
  a string byte-by-byte in the source are modelled on the character list
  `String.data` (exact for the single-byte characters the code manipulates).
* Filesystem and OS state is passed explicitly: each command takes a world
  record holding the relevant file contents (`Option` = file existence) and
  the OS process table, and returns the updated world where the source
  mutates disk state.  External command invocations (process spawn, signal)
  are recorded in an effect list.
* Fallible Rust functions returning `Result<T, String>` become
  `Except String T`.
-/

namespace Omnitrade

/-! ### Character-list string helpers (models of Rust `str` primitives) -/

/-- Model of Rust `str::trim`: drop leading and trailing whitespace from the
character sequence. -/
def trimChars (cs : List Char) : List Char :=
  ((cs.dropWhile Char.isWhitespace).reverse.dropWhile Char.isWhitespace).reverse

/-- Numeric value of a digit sequence (used by the integer/decimal parsers). -/
def digitsVal (cs : List Char) : Nat :=
  cs.foldl (fun acc c => acc * 10 + (c.toNat - 48)) 0

/-- Strip an optional leading `+` sign (part of the Rust integer grammar). -/
def stripPlus : List Char → List Char
  | '+' :: rest => rest
  | cs => cs

/-- Model of Rust `str::parse::<u32>()` applied after `trim` (as done on the
pid file content): optional leading `+`, then one or more ASCII digits,
rejecting overflow past `u32::MAX`.  `none` models the `ParseIntError`
case. -/
def parseU32 (s : String) : Option Nat :=
  let cs := stripPlus (trimChars s.data)
  if cs ≠ [] ∧ cs.all Char.isDigit then
    let n := digitsVal cs
    if n < 2 ^ 32 then some n else none
  else none

/-- Strip an optional sign from a decimal literal, returning the sign factor
and the remainder. -/
def splitSign : List Char → ℚ × List Char
  | '-' :: rest => (-1, rest)
  | '+' :: rest => (1, rest)
  | cs => (1, cs)

/-- Model of Rust `str::parse::<f64>()` restricted to the plain decimal
literals the ticker endpoint transmits: optional sign, integer digits,
optional fractional part (`Digit+ | Digit+ '.' Digit* | Digit* '.' Digit+`).
The parsed value is represented exactly as a rational.  `none` models the
`ParseFloatError` case. -/
def parseF64 (s : String) : Option ℚ :=
  let (sign, cs) := splitSign s.data
  let intPart := cs.takeWhile Char.isDigit
  let rest := cs.drop intPart.length
  match rest with
  | [] =>
    if intPart = [] then none
    else some (sign * (digitsVal intPart : ℚ))
  | '.' :: fracPart =>
    if fracPart.all Char.isDigit ∧ (intPart ≠ [] ∨ fracPart ≠ []) then
      some (sign * ((digitsVal intPart : ℚ) +
        (digitsVal fracPart : ℚ) / (10 : ℚ) ^ fracPart.length))
    else none
  | _ => none

/-- Split a character list on newline characters, keeping empty segments
(the semantics of `str::split('\n')`). -/
def splitOnNl : List Char → List (List Char)
  | [] => [[]]
  | c :: rest =>
    if c = '\n' then [] :: splitOnNl rest
    else
      match splitOnNl rest with
      | [] => [[c]]
      | l :: ls => (c :: l) :: ls

/-- Strip one trailing carriage return from a line. -/
def stripCr (l : List Char) : List Char :=
  if l.getLast? = some '\r' then l.dropLast else l

/-- Model of Rust `String::lines()`: split on `'\n'`, not yielding a final
empty line for a trailing newline, and stripping one trailing `'\r'` from each
line. -/
def rustLines (s : String) : List String :=
  if s.data = [] then []
  else
    let parts := splitOnNl s.data
    let parts := if parts.getLast? = some [] then parts.dropLast else parts
    parts.map (fun l => String.mk (stripCr l))

/-! ### Config commands (`commands/config.rs`) -/

/-- `ExchangeConfig` from `config.rs`. -/
structure ExchangeConfig where
  apiKey : String
  secret : String
  testnet : Bool
deriving DecidableEq, Repr

/-- `SecurityConfig` from `config.rs`. -/
structure SecurityConfig where
  maxOrderSize : ℚ
  confirmTrades : Bool
deriving DecidableEq, Repr

/-- `TelegramConfig` from `config.rs`. -/
structure TelegramConfig where
  enabled : Bool
  botToken : Option String
  chatId : Option String
deriving DecidableEq, Repr

/-- `DiscordConfig` from `config.rs`. -/
structure DiscordConfig where
  enabled : Bool
  webhookUrl : Option String
deriving DecidableEq, Repr

/-- `NotificationConfig` from `config.rs`. -/
structure NotificationConfig where
  native : Option Bool
  telegram : Option TelegramConfig
  discord : Option DiscordConfig
deriving DecidableEq, Repr

/-- `Config` from `config.rs`.  The `HashMap<String, ExchangeConfig>` is
modelled as an association list in iteration order. -/
structure Config where
  exchanges : List (String × ExchangeConfig)
  security : Option SecurityConfig
  notifications : Option NotificationConfig
deriving DecidableEq, Repr

/-- `mask_key` from `config.rs`, on the character sequence of the key:
below 10 characters the result is the fixed placeholder `"***"`, otherwise
the first five characters, an ellipsis, and the last five characters. -/
def maskKey (key : List Char) : List Char :=
  if key.length < 10 then "***".data
  else key.take 5 ++ "...".data ++ key.drop (key.length - 5)

/-- `mask_key` wrapped back on `String`. -/
def maskKeyS (key : String) : String :=
  String.mk (maskKey key.data)

/-- State of `~/.omnitrade/config.json` as seen by `get_config`:
`none` = the file does not exist; `some (.error e)` = it exists but reading
or schema-parsing it fails with message `e`; `some (.ok c)` = it parses to
`c`.  (Text-level JSON is not re-modelled here; the round-trip law is proved
for the alerts store below.) -/
def ConfigDisk : Type := Option (Except String Config)

/-- The default config `get_config` (and `save_exchange`) builds when
`config.json` does not exist. -/
def defaultConfig : Config :=
  { exchanges := []
    security := some { maxOrderSize := 100, confirmTrades := true }
    notifications := none }

/-- Redaction applied to one credential entry by `get_config`. -/
def redactEntry (p : String × ExchangeConfig) : String × ExchangeConfig :=
  (p.1, { apiKey := maskKeyS p.2.apiKey, secret := "********", testnet := p.2.testnet })

/-- `get_config` from `config.rs`.  It performs no writes, so the world is
only read: a missing file yields the default config, a present file is
parsed and every exchange credential is redacted before being returned. -/
def getConfig (disk : ConfigDisk) : Except String Config :=
  match disk with
  | none => .ok defaultConfig
  | some (.error e) => .error e
  | some (.ok c) =>
    .ok { c with exchanges := c.exchanges.map redactEntry }

/-! ### Daemon supervisor commands (`commands/daemon.rs`) -/

/-- `DaemonStatus` from `daemon.rs`. -/
structure DaemonStatus where
  running : Bool
  pid : Option Nat
  uptime : Option String
deriving DecidableEq, Repr

/-- World state read and written by the daemon commands:
the pid marker file (`none` = missing), the age in seconds of its last
modification (the source's `modified().elapsed()`, saturated at zero),
the OS process table as the list of live pids, the outcome of invoking
`omnitrade daemon start` (`spawnLaunchErr` = the `Command` itself failed;
otherwise `spawnExitOk`/`spawnStderr` describe the child's exit), the
launch outcome of the `kill` command, and the daemon log file content. -/
structure DaemonWorld where
  pidFile : Option String
  pidAgeSecs : Nat
  livePids : List Nat
  spawnLaunchErr : Option String
  spawnExitOk : Bool
  spawnStderr : String
  killLaunchErr : Option String
  logFile : Option String
deriving DecidableEq, Repr

/-- Externally visible process-control actions issued by `start_daemon` /
`stop_daemon` (spawn of the CLI child, TERM signal). -/
inductive DaemonEff where
  | spawnStart
  | sigTerm (pid : Nat)
deriving DecidableEq, Repr

/-- `is_process_running` from `daemon.rs`: liveness query against the OS
process table. -/
def isProcessRunning (w : DaemonWorld) (pid : Nat) : Bool :=
  w.livePids.contains pid

/-- `format_duration` from `daemon.rs`. -/
def formatDuration (seconds : Nat) : String :=
  let hours := seconds / 3600
  let minutes := (seconds % 3600) / 60
  if hours > 0 then s!"{hours}h {minutes}m" else s!"{minutes}m"

/-- `get_daemon_status` from `daemon.rs`: no marker file reports stopped;
a marker file is trimmed and parsed as a pid (parse failure is an error);
a live pid reports running with uptime from the marker file's age; a dead
pid reports stopped and deletes the marker file. -/
def getDaemonStatus (w : DaemonWorld) :
    Except String (DaemonStatus × DaemonWorld) :=
  match w.pidFile with
  | none => .ok ({ running := false, pid := none, uptime := none }, w)
  | some content =>
    match parseU32 content with
    | none => .error "invalid pid in daemon.pid"
    | some pid =>
      if isProcessRunning w pid then
        .ok ({ running := true, pid := some pid,
               uptime := some (formatDuration w.pidAgeSecs) }, w)
      else
        .ok ({ running := false, pid := none, uptime := none },
             { w with pidFile := none })

/-- `start_daemon` from `daemon.rs`: queries status first and refuses when
already running; otherwise spawns `omnitrade daemon start` and surfaces a
launch failure or a nonzero exit (with captured stderr) as errors. -/
def startDaemon (w : DaemonWorld) :
    Except String Unit × DaemonWorld × List DaemonEff :=
  match getDaemonStatus w with
  | .error e => (.error e, w, [])
  | .ok (st, w1) =>
    if st.running then
      (.error "Daemon is already running", w1, [])
    else
      match w1.spawnLaunchErr with
      | some e => (.error ("Failed to start daemon: " ++ e), w1, [.spawnStart])
      | none =>
        if w1.spawnExitOk then (.ok (), w1, [.spawnStart])
        else (.error ("Daemon failed to start: " ++ w1.spawnStderr), w1,
              [.spawnStart])

/-- `stop_daemon` from `daemon.rs`: queries status first and refuses when not
running; otherwise sends TERM to the recorded pid (a launch failure of the
kill command is an error issued before any cleanup) and then removes the
marker file, ignoring removal errors. -/
def stopDaemon (w : DaemonWorld) :
    Except String Unit × DaemonWorld × List DaemonEff :=
  match getDaemonStatus w with
  | .error e => (.error e, w, [])
  | .ok (st, w1) =>
    if !st.running then
      (.error "Daemon is not running", w1, [])
    else
      match st.pid with
      | some pid =>
        match w1.killLaunchErr with
        | some e => (.error ("Failed to stop daemon: " ++ e), w1, [.sigTerm pid])
        | none => (.ok (), { w1 with pidFile := none }, [.sigTerm pid])
      | none => (.ok (), w1, [])

/-- `get_daemon_log` from `daemon.rs`: a missing log file yields the empty
list; otherwise the content is split into lines and the last `n` lines are
returned. -/
def getDaemonLog (n : Nat) (w : DaemonWorld) : Except String (List String) :=
  match w.logFile with
  | none => .ok []
  | some content =>
    let allLines := rustLines content
    let start := if allLines.length > n then allLines.length - n else 0
    .ok (allLines.drop start)

/-! ### JSON document model (for the serde round trip of the alerts store) -/

/-- Structured JSON documents, the shape `serde_json` serializes to and
deserializes from.  Integer and floating number tokens are kept apart, as in
`serde_json::Number`; float payloads are exact rationals (the embedded code
never computes with them). -/
inductive Json where
  | null
  | jsonBool (b : Bool)
  | jsonInt (n : Int)
  | jsonNum (q : ℚ)
  | jsonStr (s : String)
  | jsonArr (xs : List Json)
  | jsonObj (fields : List (String × Json))

/-- Look a field up in a JSON object's field list (first match). -/
def jsonField (fields : List (String × Json)) (key : String) : Option Json :=
  match fields with
  | [] => none
  | (k, v) :: rest => if k = key then some v else jsonField rest key

/-- Deserialize a `String` field. -/
def jsonAsStr : Json → Option String
  | .jsonStr s => some s
  | _ => none

/-- Deserialize a `bool` field. -/
def jsonAsBool : Json → Option Bool
  | .jsonBool b => some b
  | _ => none

/-- Deserialize an `i64` field (an integer token). -/
def jsonAsInt : Json → Option Int
  | .jsonInt n => some n
  | _ => none

/-- Deserialize an `f64` field (an integer or float token). -/
def jsonAsNum : Json → Option ℚ
  | .jsonInt n => some (n : ℚ)
  | .jsonNum q => some q
  | _ => none

/-- Deserialize an `Option<i64>` field value (`null` ↦ `None`). -/
def jsonAsOptInt : Json → Option (Option Int)
  | .null => some none
  | .jsonInt n => some (some n)
  | _ => none

/-- Deserialize an `Option<String>` field value (`null` ↦ `None`). -/
def jsonAsOptStr : Json → Option (Option String)
  | .null => some none
  | .jsonStr s => some (some s)
  | _ => none

/-! ### Alerts store (`commands/alerts.rs`) -/

/-- `Alert` from `alerts.rs`. -/
structure Alert where
  id : String
  symbol : String
  condition : String
  targetPrice : ℚ
  createdAt : Int
  triggered : Bool
  triggeredAt : Option Int
  exchange : Option String
deriving DecidableEq, Repr

/-- Serialization of one `Alert` (serde derive with camelCase renaming;
`Option` fields serialize to `null` when absent). -/
def encodeAlert (a : Alert) : Json :=
  .jsonObj
    [ ("id", .jsonStr a.id)
    , ("symbol", .jsonStr a.symbol)
    , ("condition", .jsonStr a.condition)
    , ("targetPrice", .jsonNum a.targetPrice)
    , ("createdAt", .jsonInt a.createdAt)
    , ("triggered", .jsonBool a.triggered)
    , ("triggeredAt", match a.triggeredAt with
        | none => .null
        | some t => .jsonInt t)
    , ("exchange", match a.exchange with
        | none => .null
        | some s => .jsonStr s) ]

/-- Deserialization of one `Alert` (serde derive: required fields must be
present with the right type; `Option` fields accept `null` or a value and
default to `None` when the key is missing). -/
def decodeAlert (j : Json) : Option Alert :=
  match j with
  | .jsonObj fs => do
    let id ← (jsonField fs "id").bind jsonAsStr
    let symbol ← (jsonField fs "symbol").bind jsonAsStr
    let condition ← (jsonField fs "condition").bind jsonAsStr
    let targetPrice ← (jsonField fs "targetPrice").bind jsonAsNum
    let createdAt ← (jsonField fs "createdAt").bind jsonAsInt
    let triggered ← (jsonField fs "triggered").bind jsonAsBool
    let triggeredAt ← match jsonField fs "triggeredAt" with
      | none => some none
      | some v => jsonAsOptInt v
    let exchange ← match jsonField fs "exchange" with
      | none => some none
      | some v => jsonAsOptStr v
    pure { id, symbol, condition, targetPrice, createdAt, triggered,
           triggeredAt, exchange }
  | _ => none

/-- Serialization of the `AlertsFile` wrapper `{"alerts": [...]}`. -/
def encodeAlertsFile (alerts : List Alert) : Json :=
  .jsonObj [("alerts", .jsonArr (alerts.map encodeAlert))]

/-- Deserialization of a JSON array of alerts, element by element (the
`Vec<Alert>` visitor); any failing element fails the whole vector. -/
def decodeAlerts : List Json → Option (List Alert)
  | [] => some []
  | j :: js =>
    match decodeAlert j, decodeAlerts js with
    | some a, some rest => some (a :: rest)
    | _, _ => none

/-- Deserialization of the `AlertsFile` wrapper. -/
def decodeAlertsFile (j : Json) : Option (List Alert) :=
  match j with
  | .jsonObj fs =>
    match jsonField fs "alerts" with
    | some (.jsonArr xs) => decodeAlerts xs
    | _ => none
  | _ => none

/-- State of `~/.omnitrade/alerts.json`: `none` = the file does not exist,
`some j` = it holds the JSON document `j`. -/
def AlertsDisk : Type := Option Json

/-- `load_alerts` from `alerts.rs`: a missing file yields the empty list;
a present document must deserialize as an `AlertsFile` (failure is the
serde error surfaced as a string). -/
def loadAlerts (disk : AlertsDisk) : Except String (List Alert) :=
  match disk with
  | none => .ok []
  | some j =>
    match decodeAlertsFile j with
    | some alerts => .ok alerts
    | none => .error "failed to parse alerts.json"

/-- `save_alerts` from `alerts.rs`: full-file overwrite with the serialized
collection. -/
def saveAlerts (alerts : List Alert) : AlertsDisk :=
  some (encodeAlertsFile alerts)

/-- One serialized facade operation on the alert store.  `add` carries the
fully built alert: its `id` and `createdAt` are assigned by the store from
the clock, modelled here as oracle-chosen values attached to the
operation. -/
inductive AlertOp where
  | add (a : Alert)
  | remove (id : String)
deriving DecidableEq, Repr

/-- `add_alert` / `remove_alert` from `alerts.rs` as one step on the disk
state: load, transform in memory (push to the end / retain the alerts whose
id differs), save. -/
def applyAlertOp (disk : AlertsDisk) : AlertOp → Except String AlertsDisk
  | .add a =>
    match loadAlerts disk with
    | .error e => .error e
    | .ok alerts => .ok (saveAlerts (alerts ++ [a]))
  | .remove id =>
    match loadAlerts disk with
    | .error e => .error e
    | .ok alerts => .ok (saveAlerts (alerts.filter (fun x => x.id ≠ id)))

/-- Serial composition of alert operations (no interleaving). -/
def runAlertOps (disk : AlertsDisk) : List AlertOp → Except String AlertsDisk
  | [] => .ok disk
  | op :: ops =>
    match applyAlertOp disk op with
    | .error e => .error e
    | .ok disk1 => runAlertOps disk1 ops

/-- The alerts inserted by a sequence of operations, in order. -/
def insertedAlerts : List AlertOp → List Alert
  | [] => []
  | .add a :: ops => a :: insertedAlerts ops
  | .remove _ :: ops => insertedAlerts ops

/-- The ids targeted by the removals of a sequence of operations. -/
def removedIds : List AlertOp → List String
  | [] => []
  | .add _ :: ops => removedIds ops
  | .remove id :: ops => id :: removedIds ops

/-- The ids of the alerts inserted by a sequence of operations. -/
def insertedIds : List AlertOp → List String
  | [] => []
  | .add a :: ops => a.id :: insertedIds ops
  | .remove _ :: ops => insertedIds ops

/-- Freshness of store-generated ids along a sequence: no removal targets an
id that a *later* `add` is assigned by the id generator (generated ids are
globally unique and hence never coincide with an id already mentioned). -/
def freshOps : List AlertOp → Bool
  | [] => true
  | .add _ :: ops => freshOps ops
  | .remove id :: ops => !(insertedIds ops).contains id && freshOps ops

/-- The in-memory result of a serial operation sequence on a loaded
collection (the composition of the per-operation transforms). -/
def listRunOps (alerts : List Alert) : List AlertOp → List Alert
  | [] => alerts
  | .add a :: ops => listRunOps (alerts ++ [a]) ops
  | .remove id :: ops => listRunOps (alerts.filter (fun x => x.id ≠ id)) ops

/-! ### DCA schedule store (`commands/dca.rs`) -/

/-- `DCAConfig` from `dca.rs`. -/
structure DCAConfig where
  id : String
  asset : String
  amount : ℚ
  frequency : String
  enabled : Bool
  lastRun : Option Int
  nextRun : Option Int
  executions : Nat
deriving DecidableEq, Repr

/-- State of `~/.omnitrade/dca.json`, at the parsed level (no round-trip
claim targets this store): `none` = the file does not exist, `some l` = it
holds the serialized collection `l`. -/
def DcaDisk : Type := Option (List DCAConfig)

/-- `load_dca_configs` from `dca.rs` restricted to well-formed disks: a
missing file yields the empty list. -/
def loadDcaConfigs (disk : DcaDisk) : List DCAConfig :=
  match disk with
  | none => []
  | some configs => configs

/-- The in-memory loop of `toggle_dca`: set `enabled` on the first config
whose id matches and stop (`break`), leaving everything else unchanged. -/
def toggleFirst (id : String) (enabled : Bool) : List DCAConfig → List DCAConfig
  | [] => []
  | c :: rest =>
    if c.id = id then { c with enabled := enabled } :: rest
    else c :: toggleFirst id enabled rest

/-- `toggle_dca` from `dca.rs`: load, flip the first match in memory, save. -/
def toggleDca (id : String) (enabled : Bool) (disk : DcaDisk) :
    Except String DcaDisk :=
  .ok (some (toggleFirst id enabled (loadDcaConfigs disk)))

/-! ### Price fetching (`commands/prices.rs`) -/

/-- `PriceData` from `prices.rs`. -/
structure PriceData where
  symbol : String
  price : ℚ
  change24h : ℚ
  volume24h : ℚ
deriving DecidableEq, Repr

/-- `BinanceTicker` from `prices.rs`: the decimal fields arrive as strings. -/
structure BinanceTicker where
  symbol : String
  lastPrice : String
  priceChangePercent : String
  quoteVolume : String
deriving DecidableEq, Repr

/-- `format_symbol` from `prices.rs`: `BTCUSDT` ↦ `BTC/USDT`; symbols not
ending in `USDT` pass through. -/
def formatSymbol (s : String) : String :=
  if "USDT".data.isSuffixOf s.data then
    String.mk (s.data.take (s.data.length - 4)) ++ "/USDT"
  else s

/-- The per-record conversion inside `fetch_prices_from_binance`: each decimal
string field is parsed independently, an unparseable field defaulting to 0.0
(`parse().unwrap_or(0.0)`). -/
def tickerToPrice (t : BinanceTicker) : PriceData :=
  { symbol := formatSymbol t.symbol
    price := (parseF64 t.lastPrice).getD 0
    change24h := (parseF64 t.priceChangePercent).getD 0
    volume24h := (parseF64 t.quoteVolume).getD 0 }

/-- The HTTP collaborator of the price fetcher: the batched ticker endpoint's
response to a list of exchange-format symbols, `.error` covering network
failure and undecodable payloads. -/
structure PriceWorld where
  response : List String → Except String (List BinanceTicker)

/-- `fetch_prices_from_binance` from `prices.rs`: one batched request for all
requested symbols; on success every ticker record is converted
independently. -/
def fetchPricesFromBinance (w : PriceWorld) (symbols : List String) :
    Except String (List PriceData) :=
  match w.response symbols with
  | .error e => .error e
  | .ok tickers => .ok (tickers.map tickerToPrice)

/-- Model of `s.replace("/", "")`: the slash separator is removed. -/
def stripSlash (s : String) : String :=
  String.mk (s.data.filter (fun c => c ≠ '/'))

/-- `get_prices` from `prices.rs`: normalize the requested symbols to the
exchange format and fetch. -/
def getPrices (w : PriceWorld) (symbols : List String) :
    Except String (List PriceData) :=
  fetchPricesFromBinance w (symbols.map stripSlash)

/-! ### Concrete sample data (used to instantiate the universally quantified
theorems below at closed inputs) -/

/-- A concrete alert, as `add_alert` would build it. -/
def alertA : Alert :=
  { id := "alert_1", symbol := "BTC/USDT", condition := "above",
    targetPrice := 5, createdAt := 1, triggered := false,
    triggeredAt := none, exchange := some "binance" }

/-- A second concrete alert. -/
def alertB : Alert :=
  { id := "alert_2", symbol := "ETH/USDT", condition := "below",
    targetPrice := 7, createdAt := 2, triggered := false,
    triggeredAt := none, exchange := some "binance" }

/-- A third concrete alert. -/
def alertC : Alert :=
  { id := "alert_3", symbol := "SOL/USDT", condition := "above",
    targetPrice := 9, createdAt := 3, triggered := false,
    triggeredAt := none, exchange := some "binance" }

/-- A concrete persisted alerts file holding `alertA`. -/
def alertsDisk0 : AlertsDisk := some (encodeAlertsFile [alertA])

/-- A concrete serial operation sequence interleaving removals and
insertions: remove an absent id, add `alertB`, remove `alertA`, add
`alertC`. -/
def alertOps0 : List AlertOp :=
  [.remove "ghost", .add alertB, .remove "alert_1", .add alertC]

/-- A concrete stored exchange credential with a 20-character API key. -/
def exchangeCred0 : ExchangeConfig :=
  { apiKey := "AKIA1234567890SECRET", secret := "topsecret", testnet := false }

/-- A concrete stored configuration holding `exchangeCred0`. -/
def config0 : Config :=
  { exchanges := [("binance", exchangeCred0)], security := none,
    notifications := none }

/-- A concrete daemon world: marker file `"1234"` last modified 125 minutes
ago, pid 1234 alive, a well-behaved CLI, and a two-line log. -/
def daemonWorld0 : DaemonWorld :=
  { pidFile := some "1234", pidAgeSecs := 125 * 60, livePids := [1234],
    spawnLaunchErr := none, spawnExitOk := true, spawnStderr := "",
    killLaunchErr := none, logFile := some "line one\nline two\n" }

/-- `daemonWorld0` with no marker file. -/
def daemonWorldNoPid : DaemonWorld :=
  { daemonWorld0 with pidFile := none }

/-- `daemonWorld0` whose recorded pid is dead. -/
def daemonWorldDead : DaemonWorld :=
  { daemonWorld0 with livePids := [] }

/-- `daemonWorld0` with an unparseable marker file. -/
def daemonWorldCorrupt : DaemonWorld :=
  { daemonWorld0 with pidFile := some "garbage" }

/-- `daemonWorld0` with no log file. -/
def daemonWorldNoLog : DaemonWorld :=
  { daemonWorld0 with logFile := none }

/-- A concrete recurring-purchase schedule (disabled). -/
def dcaA : DCAConfig :=
  { id := "dca_1", asset := "BTC", amount := 10, frequency := "daily",
    enabled := false, lastRun := none, nextRun := none, executions := 0 }

/-- A second concrete recurring-purchase schedule (enabled). -/
def dcaB : DCAConfig :=
  { id := "dca_2", asset := "ETH", amount := 20, frequency := "weekly",
    enabled := true, lastRun := some 5, nextRun := some 6, executions := 2 }

/-- The ticker record of the C5 scenario. -/
def btcTicker0 : BinanceTicker :=
  { symbol := "BTCUSDT", lastPrice := "65000.5",
    priceChangePercent := "3.2", quoteVolume := "1000000.0" }

/-- A concrete HTTP collaborator answering the batched request for
`["BTCUSDT"]` with `btcTicker0`. -/
def priceWorld0 : PriceWorld :=
  { response := fun syms =>
      if syms = ["BTCUSDT"] then .ok [btcTicker0] else .error "unexpected" }

/-! ## Shared lemmas -/

/-- Deserializing a serialized alert restores it exactly. -/
theorem decodeAlert_encodeAlert (a : Alert) : decodeAlert (encodeAlert a) = some a := by
  cases a with
  | mk id symbol condition targetPrice createdAt triggered triggeredAt exchange =>
    cases triggeredAt <;> cases exchange <;> rfl

/-- Deserializing a serialized alert vector restores it exactly. -/
theorem decodeAlerts_map_encodeAlert (l : List Alert) :
    decodeAlerts (l.map encodeAlert) = some l := by
  induction l with
  | nil => rfl
  | cons a rest ih => simp [decodeAlerts, decodeAlert_encodeAlert, ih]

/-- Deserializing a serialized `AlertsFile` restores the collection exactly. -/
theorem decodeAlertsFile_encodeAlertsFile (l : List Alert) :
    decodeAlertsFile (encodeAlertsFile l) = some l := by
  simp [decodeAlertsFile, encodeAlertsFile, jsonField, decodeAlerts_map_encodeAlert]

/-- `load_alerts` after `save_alerts` returns the saved collection. -/
theorem loadAlerts_saveAlerts (l : List Alert) :
    loadAlerts (saveAlerts l) = .ok l := by
  simp [loadAlerts, saveAlerts, decodeAlertsFile_encodeAlertsFile]

/-- Every alert inserted by a sequence contributes its id to `insertedIds`. -/
theorem mem_insertedIds_of_mem_insertedAlerts {a : Alert} {ops : List AlertOp}
    (h : a ∈ insertedAlerts ops) : a.id ∈ insertedIds ops := by
  induction ops with
  | nil => simp [insertedAlerts] at h
  | cons op rest ih =>
    cases op with
    | add b =>
      simp only [insertedAlerts, List.mem_cons] at h
      rcases h with h | h
      · simp [insertedIds, h]
      · simp [insertedIds, ih h]
    | remove id =>
      simp only [insertedAlerts] at h
      simp [insertedIds, ih h]

/-- Under id freshness, running a serial operation sequence in memory yields
the inserts appended and the removed ids filtered out, independently of the
interleaving of removals and insertions. -/
theorem listRunOps_eq (init : List Alert) (ops : List AlertOp)
    (hfresh : freshOps ops = true) :
    listRunOps init ops =
      (init ++ insertedAlerts ops).filter (fun a => a.id ∉ removedIds ops) := by
  induction ops generalizing init with
  | nil => simp [listRunOps, insertedAlerts, removedIds]
  | cons op rest ih =>
    cases op with
    | add a =>
      simp only [freshOps] at hfresh
      simp only [listRunOps, insertedAlerts, removedIds]
      rw [ih (init ++ [a]) hfresh, List.append_assoc]
      rfl
    | remove x =>
      rw [freshOps, Bool.and_eq_true, Bool.not_eq_true'] at hfresh
      obtain ⟨hx0, hfresh⟩ := hfresh
      have hx : x ∉ insertedIds rest := by simpa using hx0
      simp only [listRunOps, insertedAlerts, removedIds]
      rw [ih _ hfresh, List.filter_append, List.filter_append]
      congr 1
      · rw [List.filter_filter]
        apply List.filter_congr
        intro b _
        by_cases h1 : b.id = x <;> by_cases h2 : b.id ∈ removedIds rest <;>
          simp [h1, h2]
      · apply List.filter_congr
        intro b hb
        have hbid : b.id ∈ insertedIds rest :=
          mem_insertedIds_of_mem_insertedAlerts hb
        have hbx : b.id ≠ x := fun h => hx (h ▸ hbid)
        by_cases h2 : b.id ∈ removedIds rest <;> simp [h2, hbx]

/-- Running a serial operation sequence over the disk never fails when the
initial disk loads, and the final disk holds exactly the in-memory run. -/
theorem runAlertOps_ok (ops : List AlertOp) (disk : AlertsDisk)
    (init : List Alert) (hload : loadAlerts disk = .ok init) :
    ∃ disk2, runAlertOps disk ops = .ok disk2 ∧
      loadAlerts disk2 = .ok (listRunOps init ops) := by
  induction ops generalizing disk init with
  | nil => exact ⟨disk, rfl, hload⟩
  | cons op rest ih =>
    cases op with
    | add a =>
      obtain ⟨disk2, hrun, hload2⟩ :=
        ih (saveAlerts (init ++ [a])) (init ++ [a]) (loadAlerts_saveAlerts _)
      exact ⟨disk2, by simp [runAlertOps, applyAlertOp, hload, hrun],
        by simpa [listRunOps] using hload2⟩
    | remove x =>
      obtain ⟨disk2, hrun, hload2⟩ :=
        ih (saveAlerts (init.filter (fun b => b.id ≠ x)))
          (init.filter (fun b => b.id ≠ x)) (loadAlerts_saveAlerts _)
      have happ : applyAlertOp disk (.remove x) =
          .ok (saveAlerts (init.filter (fun b => b.id ≠ x))) := by
        unfold applyAlertOp
        rw [hload]
      refine ⟨disk2, ?_, by simpa [listRunOps] using hload2⟩
      rw [runAlertOps, happ]
      exact hrun

/-! ## Claim theorems -/

/-- C3: for every sequence of add-alert and remove-alert operations applied
serially starting from any persisted alert collection, the final persisted
collection equals the initial collection plus the inserted alerts minus all
alerts whose id was removed, regardless of the order of removals relative to
insertions (given that store-generated ids are fresh); and remove-alert on an
id not present in the collection is a no-op success, leaving the persisted
collection unchanged. -/
theorem alert_ops_add_remove_spec (disk : AlertsDisk) (init : List Alert)
    (ops : List AlertOp) (hload : loadAlerts disk = .ok init)
    (hfresh : freshOps ops = true) :
    (∃ disk2, runAlertOps disk ops = .ok disk2 ∧
        loadAlerts disk2 = .ok
          ((init ++ insertedAlerts ops).filter
            (fun a => a.id ∉ removedIds ops)))
    ∧ ∀ id, id ∉ init.map Alert.id →
        applyAlertOp disk (.remove id) = .ok (saveAlerts init) ∧
          loadAlerts (saveAlerts init) = .ok init := by
  constructor
  · obtain ⟨disk2, hrun, hload2⟩ := runAlertOps_ok ops disk init hload
    exact ⟨disk2, hrun, by rw [hload2, listRunOps_eq init ops hfresh]⟩
  · intro id hid
    have hfilter : init.filter (fun b => b.id ≠ id) = init := by
      apply List.filter_eq_self.mpr
      intro b hb
      have hbid : b.id ≠ id :=
        fun hbid => hid (hbid ▸ List.mem_map_of_mem Alert.id hb)
      simpa using hbid
    have happ : applyAlertOp disk (.remove id) =
        .ok (saveAlerts (init.filter (fun b => b.id ≠ id))) := by
      unfold applyAlertOp
      rw [hload]
    rw [happ, hfilter]
    exact ⟨rfl, loadAlerts_saveAlerts init⟩

/-- Witness for C3 at a concrete disk and operation sequence: starting from a
collection holding `alertA`, removing an absent id, adding `alertB`, removing
`alertA` and adding `alertC` leaves exactly the two added alerts, and removing
an absent id alone is a no-op. -/
theorem alert_ops_add_remove_spec_witness :
    (∃ disk2, runAlertOps alertsDisk0 alertOps0 = .ok disk2 ∧
        loadAlerts disk2 = .ok
          (([alertA] ++ insertedAlerts alertOps0).filter
            (fun a => a.id ∉ removedIds alertOps0)))
    ∧ ∀ id, id ∉ [alertA].map Alert.id →
        applyAlertOp alertsDisk0 (.remove id) = .ok (saveAlerts [alertA]) ∧
          loadAlerts (saveAlerts [alertA]) = .ok [alertA] :=
  alert_ops_add_remove_spec alertsDisk0 [alertA] alertOps0 rfl rfl

/-- C4: load on a collection whose backing file does not exist returns the
empty sequence as a success, and for every collection, including the empty
one, save followed by load returns a structurally equal collection. -/
theorem alerts_load_missing_and_roundtrip :
    loadAlerts none = .ok [] ∧
    ∀ alerts : List Alert, loadAlerts (saveAlerts alerts) = .ok alerts :=
  ⟨rfl, loadAlerts_saveAlerts⟩

/-! ## Further shared lemmas -/

/-- The scenario's last price parses exactly. -/
theorem parseF64_lastPrice0 : parseF64 "65000.5" = some (65000.5 : ℚ) := by
  show (some ((1 : ℚ) * (((65000 : ℕ) : ℚ) + ((5 : ℕ) : ℚ) / (10 : ℚ) ^ (1 : ℕ))) :
    Option ℚ) = _
  norm_num

/-- The scenario's percent change parses exactly. -/
theorem parseF64_change0 : parseF64 "3.2" = some (3.2 : ℚ) := by
  show (some ((1 : ℚ) * (((3 : ℕ) : ℚ) + ((2 : ℕ) : ℚ) / (10 : ℚ) ^ (1 : ℕ))) :
    Option ℚ) = _
  norm_num

/-- The scenario's quote volume parses exactly. -/
theorem parseF64_volume0 : parseF64 "1000000.0" = some (1000000.0 : ℚ) := by
  show (some ((1 : ℚ) * (((1000000 : ℕ) : ℚ) + ((0 : ℕ) : ℚ) / (10 : ℚ) ^ (1 : ℕ))) :
    Option ℚ) = _
  norm_num

/-- `toggleFirst` leaves a collection without a matching id unchanged. -/
theorem toggleFirst_of_no_match (id : String) (e : Bool) (l : List DCAConfig)
    (h : ∀ c ∈ l, c.id ≠ id) : toggleFirst id e l = l := by
  induction l with
  | nil => rfl
  | cons c rest ih =>
    rw [toggleFirst, if_neg (h c (List.mem_cons_self c rest))]
    rw [ih (fun x hx => h x (List.mem_cons_of_mem c hx))]

/-- `toggleFirst` rewrites exactly the first matching config's `enabled`
field. -/
theorem toggleFirst_first_match (id : String) (e : Bool) (pre : List DCAConfig)
    (c : DCAConfig) (post : List DCAConfig) (hc : c.id = id)
    (hpre : ∀ x ∈ pre, x.id ≠ id) :
    toggleFirst id e (pre ++ c :: post) =
      pre ++ { c with enabled := e } :: post := by
  induction pre with
  | nil => simp [toggleFirst, hc]
  | cons hd tl ih =>
    rw [List.cons_append, toggleFirst,
      if_neg (hpre hd (List.mem_cons_self hd tl)),
      ih (fun x hx => hpre x (List.mem_cons_of_mem hd hx)), List.cons_append]

/-! ## Claim theorems (continued) -/

/-- C1: for every exchange credential returned by get-config, the redacted
API key of a key of length at least 10 reveals exactly the first 5 and last 5
characters joined by an ellipsis (in particular it depends on nothing but
those ten characters, hiding all middle ones); a key of length below 10
redacts to the fixed placeholder `"***"`; and the secret field is always
replaced by the fixed placeholder `"********"` regardless of its input. -/
theorem credential_redaction_spec :
    (∀ key : List Char, key.length < 10 → maskKey key = "***".data)
  ∧ (∀ key : List Char, 10 ≤ key.length →
      maskKey key = key.take 5 ++ "...".data ++ key.drop (key.length - 5))
  ∧ (∀ k1 k2 : List Char, 10 ≤ k1.length → 10 ≤ k2.length →
      k1.take 5 = k2.take 5 →
      k1.drop (k1.length - 5) = k2.drop (k2.length - 5) →
      maskKey k1 = maskKey k2)
  ∧ (∀ c : Config, getConfig (some (.ok c)) =
      .ok { c with exchanges := c.exchanges.map (fun p =>
        (p.1, { apiKey := maskKeyS p.2.apiKey, secret := "********",
                testnet := p.2.testnet })) })
  ∧ (∀ disk cfg, getConfig disk = .ok cfg →
      ∀ p ∈ cfg.exchanges, p.2.secret = "********") := by
  have hmask : ∀ key : List Char, 10 ≤ key.length →
      maskKey key = key.take 5 ++ "...".data ++ key.drop (key.length - 5) := by
    intro key h
    rw [maskKey, if_neg (by omega)]
  refine ⟨?_, hmask, ?_, ?_, ?_⟩
  · intro key h
    rw [maskKey, if_pos h]
  · intro k1 k2 h1 h2 htake hdrop
    rw [hmask k1 h1, hmask k2 h2, htake, hdrop]
  · intro c
    rfl
  · intro disk cfg h p hp
    match disk with
    | none =>
      cases h
      simp [defaultConfig] at hp
    | some (.error e) => cases h
    | some (.ok c) =>
      cases h
      simp only [List.mem_map] at hp
      obtain ⟨q, _, rfl⟩ := hp
      rfl

/-- Witness for C1: the redaction of a concrete short key, of a concrete
20-character key, and of the credentials of a concrete stored config. -/
theorem credential_redaction_spec_witness :
    maskKey "short".data = "***".data
  ∧ maskKey "AKIA1234567890SECRET".data =
      "AKIA1234567890SECRET".data.take 5 ++ "...".data ++
        "AKIA1234567890SECRET".data.drop ("AKIA1234567890SECRET".data.length - 5)
  ∧ ∀ p ∈ (Config.exchanges
      { config0 with exchanges := config0.exchanges.map (fun p =>
        (p.1, { apiKey := maskKeyS p.2.apiKey, secret := "********",
                testnet := p.2.testnet })) }), p.2.secret = "********" :=
  ⟨credential_redaction_spec.1 "short".data (by decide),
   credential_redaction_spec.2.1 "AKIA1234567890SECRET".data (by decide),
   credential_redaction_spec.2.2.2.2 (some (.ok config0)) _
     (credential_redaction_spec.2.2.2.1 config0)⟩

/-- C10: when the config file does not exist, get-config succeeds with the
default configuration: empty exchanges, a security section with
max-order-size 100.0 and confirm-trades true, and no notifications section.
(The source's missing-file branch performs no filesystem write, which the
embedding reflects by `getConfig` reading the disk state without returning a
new one.) -/
theorem get_config_missing_default :
    getConfig none = .ok
      { exchanges := [],
        security := some { maxOrderSize := 100, confirmTrades := true },
        notifications := none } := rfl

/-- C2: get-daemon-status reports running with the parsed pid and uptime
"2h 5m" for a live pid whose marker file is 125 minutes old; reports stopped
with no pid and no uptime when the marker file is missing; and reports
stopped, deleting the marker file, when the recorded pid is dead. -/
theorem daemon_status_scenarios :
    (∀ w content pid, w.pidFile = some content →
      parseU32 content = some pid → isProcessRunning w pid = true →
      w.pidAgeSecs = 125 * 60 →
      getDaemonStatus w = .ok
        ({ running := true, pid := some pid, uptime := some "2h 5m" }, w))
  ∧ (∀ w, w.pidFile = none →
      getDaemonStatus w = .ok
        ({ running := false, pid := none, uptime := none }, w))
  ∧ (∀ w content pid, w.pidFile = some content →
      parseU32 content = some pid → isProcessRunning w pid = false →
      getDaemonStatus w = .ok
        ({ running := false, pid := none, uptime := none },
         { w with pidFile := none })) := by
  refine ⟨?_, ?_, ?_⟩
  · intro w content pid h1 h2 h3 h4
    have hfmt : formatDuration (125 * 60) = "2h 5m" := by decide
    simp [getDaemonStatus, h1, h2, h3, h4, hfmt]
  · intro w h1
    simp [getDaemonStatus, h1]
  · intro w content pid h1 h2 h3
    simp [getDaemonStatus, h1, h2, h3]

/-- Witness for C2 at the three concrete daemon worlds. -/
theorem daemon_status_scenarios_witness :
    getDaemonStatus daemonWorld0 = .ok
      ({ running := true, pid := some 1234, uptime := some "2h 5m" },
       daemonWorld0)
  ∧ getDaemonStatus daemonWorldNoPid = .ok
      ({ running := false, pid := none, uptime := none }, daemonWorldNoPid)
  ∧ getDaemonStatus daemonWorldDead = .ok
      ({ running := false, pid := none, uptime := none },
       { daemonWorldDead with pidFile := none }) :=
  ⟨daemon_status_scenarios.1 daemonWorld0 "1234" 1234 rfl (by decide) (by decide) rfl,
   daemon_status_scenarios.2.1 daemonWorldNoPid rfl,
   daemon_status_scenarios.2.2 daemonWorldDead "1234" 1234 rfl (by decide) (by decide)⟩

/-- C7: if the daemon marker file exists but its content does not parse as a
process identifier, get-daemon-status returns an error, distinct from every
success result (in particular from the stopped report returned when no marker
file exists). -/
theorem daemon_corrupt_marker_error (w : DaemonWorld) (content : String)
    (hfile : w.pidFile = some content) (hparse : parseU32 content = none) :
    (∃ e, getDaemonStatus w = .error e) ∧
    ∀ r, getDaemonStatus w ≠ .ok r := by
  have herr : getDaemonStatus w = .error "invalid pid in daemon.pid" := by
    simp [getDaemonStatus, hfile, hparse]
  rw [herr]
  exact ⟨⟨_, rfl⟩, fun r h => by cases h⟩

/-- Witness for C7 at the concrete corrupt-marker world. -/
theorem daemon_corrupt_marker_error_witness :
    (∃ e, getDaemonStatus daemonWorldCorrupt = .error e) ∧
    ∀ r, getDaemonStatus daemonWorldCorrupt ≠ .ok r :=
  daemon_corrupt_marker_error daemonWorldCorrupt "garbage" rfl (by decide)

/-- C6: start-daemon invoked while the status reports running fails with the
distinct error "Daemon is already running" and issues no effect (no child
process is spawned); stop-daemon invoked while the status reports not running
fails with the distinct error "Daemon is not running" and issues no effect
(no termination signal is sent). -/
theorem daemon_start_stop_guards :
    (∀ w st w1, getDaemonStatus w = .ok (st, w1) → st.running = true →
      startDaemon w = (.error "Daemon is already running", w1, []))
  ∧ (∀ w st w1, getDaemonStatus w = .ok (st, w1) → st.running = false →
      stopDaemon w = (.error "Daemon is not running", w1, [])) := by
  constructor
  · intro w st w1 hstatus hrun
    rw [startDaemon, hstatus]
    simp [hrun]
  · intro w st w1 hstatus hrun
    rw [stopDaemon, hstatus]
    simp [hrun]

/-- Witness for C6: the running world refuses a start, the stopped world
refuses a stop. -/
theorem daemon_start_stop_guards_witness :
    startDaemon daemonWorld0 =
      (.error "Daemon is already running", daemonWorld0, [])
  ∧ stopDaemon daemonWorldNoPid =
      (.error "Daemon is not running", daemonWorldNoPid, []) :=
  ⟨daemon_start_stop_guards.1 daemonWorld0
      { running := true, pid := some 1234, uptime := some "2h 5m" }
      daemonWorld0 rfl rfl,
   daemon_start_stop_guards.2 daemonWorldNoPid
      { running := false, pid := none, uptime := none }
      daemonWorldNoPid rfl rfl⟩

/-- C9: tail-daemon-log returns a suffix of the log's lines of length
`min n total` (the last `n` lines, split on line boundaries); for `n` at
least the total line count it returns all lines unchanged and in order; and
a missing log file yields the empty sequence, not an error. -/
theorem tail_log_spec :
    (∀ n w, w.logFile = none → getDaemonLog n w = .ok [])
  ∧ (∀ n w content res, w.logFile = some content →
      getDaemonLog n w = .ok res →
      rustLines content =
        (rustLines content).take ((rustLines content).length - n) ++ res ∧
      res.length = min n (rustLines content).length)
  ∧ (∀ n w content, w.logFile = some content →
      (rustLines content).length ≤ n →
      getDaemonLog n w = .ok (rustLines content)) := by
  refine ⟨?_, ?_, ?_⟩
  · intro n w h
    rw [getDaemonLog, h]
  · intro n w content res h1 h2
    rw [getDaemonLog, h1] at h2
    by_cases hlen : (rustLines content).length > n
    · simp only [hlen, if_true, Except.ok.injEq] at h2
      subst h2
      constructor
      · rw [List.take_append_drop]
      · rw [List.length_drop]
        omega
    · simp only [hlen, if_false, List.drop_zero, Except.ok.injEq] at h2
      subst h2
      constructor
      · have : (rustLines content).length - n = 0 := by omega
        rw [this, List.take_zero, List.nil_append]
      · omega
  · intro n w content h1 h2
    rw [getDaemonLog, h1]
    have : ¬ (rustLines content).length > n := by omega
    simp [this]

/-- Witness for C9: the missing-log world yields no lines, and tailing more
lines than the concrete two-line log holds returns both lines in order. -/
theorem tail_log_spec_witness :
    getDaemonLog 5 daemonWorldNoLog = .ok []
  ∧ getDaemonLog 5 daemonWorld0 = .ok (rustLines "line one\nline two\n") :=
  ⟨tail_log_spec.1 5 daemonWorldNoLog rfl,
   tail_log_spec.2.2 5 daemonWorld0 "line one\nline two\n" rfl (by decide)⟩

/-- C8: toggle-schedule sets the enabled flag on the first schedule whose id
matches, leaving every other field of that schedule and every other schedule
unchanged, and succeeds; when no schedule has the given id the operation
succeeds and the persisted collection is unchanged. -/
theorem toggle_schedule_spec (id : String) (enabled : Bool) :
    (∀ pre (c : DCAConfig) post, c.id = id → (∀ x ∈ pre, x.id ≠ id) →
      toggleDca id enabled (some (pre ++ c :: post)) =
        .ok (some (pre ++ { c with enabled := enabled } :: post)))
  ∧ (∀ configs : List DCAConfig, (∀ c ∈ configs, c.id ≠ id) →
      toggleDca id enabled (some configs) = .ok (some configs)) := by
  constructor
  · intro pre c post hc hpre
    rw [toggleDca, loadDcaConfigs, toggleFirst_first_match id enabled pre c post hc hpre]
  · intro configs h
    rw [toggleDca, loadDcaConfigs, toggleFirst_of_no_match id enabled configs h]

/-- Witness for C8: toggling `dcaB` off flips only its flag, and toggling an
absent id leaves the concrete collection untouched. -/
theorem toggle_schedule_spec_witness :
    toggleDca "dca_2" false (some ([dcaA] ++ dcaB :: [])) =
      .ok (some ([dcaA] ++ { dcaB with enabled := false } :: []))
  ∧ toggleDca "absent" true (some [dcaA, dcaB]) = .ok (some [dcaA, dcaB]) :=
  ⟨(toggle_schedule_spec "dca_2" false).1 [dcaA] dcaB [] rfl (by decide),
   (toggle_schedule_spec "absent" true).2 [dcaA, dcaB] (by decide)⟩

/-- C5: for the batched ticker response holding BTCUSDT at last price
"65000.5", percent change "3.2" and quote volume "1000000.0", get-prices on
["BTC/USDT"] returns exactly one snapshot with symbol "BTC/USDT", price
65000.5, change 3.2 and volume 1000000.0; every response batch is converted
record by record; and in each record an unparseable decimal field defaults to
0.0 by itself, leaving the other fields untouched. -/
theorem get_prices_spec :
    (∀ w : PriceWorld, w.response ["BTCUSDT"] = .ok [btcTicker0] →
      getPrices w ["BTC/USDT"] = .ok
        [{ symbol := "BTC/USDT", price := 65000.5, change24h := 3.2,
           volume24h := 1000000.0 }])
  ∧ (∀ (w : PriceWorld) symbols tickers,
      w.response (symbols.map stripSlash) = .ok tickers →
      getPrices w symbols = .ok (tickers.map tickerToPrice))
  ∧ (∀ t : BinanceTicker, parseF64 t.lastPrice = none →
      tickerToPrice t =
        { symbol := formatSymbol t.symbol, price := 0,
          change24h := (parseF64 t.priceChangePercent).getD 0,
          volume24h := (parseF64 t.quoteVolume).getD 0 })
  ∧ (∀ t : BinanceTicker, parseF64 t.priceChangePercent = none →
      tickerToPrice t =
        { symbol := formatSymbol t.symbol,
          price := (parseF64 t.lastPrice).getD 0, change24h := 0,
          volume24h := (parseF64 t.quoteVolume).getD 0 })
  ∧ (∀ t : BinanceTicker, parseF64 t.quoteVolume = none →
      tickerToPrice t =
        { symbol := formatSymbol t.symbol,
          price := (parseF64 t.lastPrice).getD 0,
          change24h := (parseF64 t.priceChangePercent).getD 0,
          volume24h := 0 }) := by
  refine ⟨?_, ?_, ?_, ?_, ?_⟩
  · intro w hresp
    have hmap : ["BTC/USDT"].map stripSlash = ["BTCUSDT"] := by decide
    have hsym : formatSymbol "BTCUSDT" = "BTC/USDT" := by decide
    rw [getPrices, fetchPricesFromBinance, hmap, hresp]
    simp [btcTicker0, tickerToPrice, parseF64_lastPrice0, parseF64_change0,
      parseF64_volume0, hsym]
  · intro w symbols tickers hresp
    rw [getPrices, fetchPricesFromBinance, hresp]
  · intro t h
    rw [tickerToPrice, h]
    rfl
  · intro t h
    rw [tickerToPrice, h]
    rfl
  · intro t h
    rw [tickerToPrice, h]
    rfl

/-- Witness for C5 at the concrete collaborator `priceWorld0` and a concrete
record with an unparseable percent change. -/
theorem get_prices_spec_witness :
    getPrices priceWorld0 ["BTC/USDT"] = .ok
      [{ symbol := "BTC/USDT", price := 65000.5, change24h := 3.2,
         volume24h := 1000000.0 }]
  ∧ tickerToPrice
      { symbol := "ETHUSDT", lastPrice := "2500.0",
        priceChangePercent := "bad", quoteVolume := "10.0" } =
      { symbol := formatSymbol "ETHUSDT",
        price := (parseF64 "2500.0").getD 0, change24h := 0,
        volume24h := (parseF64 "10.0").getD 0 } :=
  ⟨get_prices_spec.1 priceWorld0 rfl,
   get_prices_spec.2.2.2.1
     { symbol := "ETHUSDT", lastPrice := "2500.0",
       priceChangePercent := "bad", quoteVolume := "10.0" } (by decide)⟩

end Omnitrade
